import Mathlib

/-!
Shallow embedding of the solana-analysis-bot scripts.

Python floats are modelled as rationals, Python strings as Lean strings
(sequences of Unicode code points, matching Python semantics for slicing,
length and containment), Python dicts of template variables as association
lists, and external effects (HTTP responses, chat-completion calls, vendor
send outcomes, the wall clock) as explicit inputs or oracle functions.
Every definition is translated from the corresponding function in src/;
comments name the file and function it embeds.
-/

namespace SolBot

/-! ## Python string primitives -/

/-- Python whitespace test (str.isspace / str.strip character class),
restricted to the characters that can realistically appear here. -/
def pyIsSpace (c : Char) : Bool :=
  c = ' ' || c = '\t' || c = '\n' || c = '\r' || c = '\x0b' || c = '\x0c' || c = '\xa0'

/-- Leading-whitespace removal on a character list. -/
def dropSpace (cs : List Char) : List Char := cs.dropWhile pyIsSpace

/-- Python str.strip() with no arguments. -/
def pyStrip (s : String) : String :=
  String.mk (((dropSpace s.data).reverse.dropWhile pyIsSpace).reverse)

/-- Does the list start with the given needle (needle first argument). -/
def listStartsWith : List Char → List Char → Bool
  | [], _ => true
  | _ :: _, [] => false
  | a :: as, b :: bs => a == b && listStartsWith as bs

/-- Substring containment on character lists. -/
def listHasSub (needle : List Char) : List Char → Bool
  | [] => needle.isEmpty
  | c :: rest => listStartsWith needle (c :: rest) || listHasSub needle rest

/-- Python `needle in haystack` for strings. -/
def pyIn (needle hay : String) : Bool := listHasSub needle.data hay.data

/-- Python str.lower(), covering ASCII plus the capital delta that the
funding-extraction patterns compare against. -/
def pyLower (s : String) : String :=
  String.mk (s.data.map (fun c => if c = 'Δ' then 'δ' else c.toLower))

/-- Python str.replace(old, new) for a one-character pattern replaced by a
one-character substitute. -/
def chSwap (a b : Char) (s : String) : String :=
  String.mk (s.data.map (fun c => if c = a then b else c))

/-- Python str.replace(old, "") for a one-character pattern (deletion). -/
def chDrop (a : Char) (s : String) : String :=
  String.mk (s.data.filter (fun c => !(c = a)))

/-- Python s[:n] (also the value of `s[:n] if len(s) > n else s`). -/
def strTake (s : String) (n : Nat) : String := String.mk (s.data.take n)

/-- Helper for Python str.split() with no argument: accumulates the current
word (reversed) while scanning. -/
def wsSplitAux : List Char → List Char → List (List Char)
  | [], acc => if acc.isEmpty then [] else [acc.reverse]
  | c :: rest, acc =>
    if pyIsSpace c then
      if acc.isEmpty then wsSplitAux rest [] else acc.reverse :: wsSplitAux rest []
    else wsSplitAux rest (c :: acc)

/-- Python str.split() with no argument: split on whitespace runs, dropping
empty pieces. -/
def pyWsSplit (s : String) : List String :=
  (wsSplitAux s.data []).map (fun cs => String.mk cs)

/-- Helper for Python str.split(sep) with a one-character separator:
accumulates the current piece (reversed) while scanning. -/
def chSplitAux (sep : Char) : List Char → List Char → List (List Char)
  | [], acc => [acc.reverse]
  | c :: rest, acc =>
    if c = sep then acc.reverse :: chSplitAux sep rest []
    else chSplitAux sep rest (c :: acc)

/-- Python s.split(sep) for a one-character separator (the only separators
these scripts split on). -/
def pySplitCh (s : String) (sep : Char) : List String :=
  (chSplitAux sep s.data []).map (fun cs => String.mk cs)

/-- First piece of Python s.split(sep) (always exists). -/
def firstSeg (s : String) (sep : Char) : String := (pySplitCh s sep).headD s

/-! ## Python float() on a string, as an exact rational.

Finite decimal literals (optional sign, integer/fraction digits, optional
exponent) are parsed exactly; the inf/nan spellings are rejected, which the
range validators below also reject in Python, so acceptance agrees. -/

/-- Value of a digit run. -/
def digitsVal (cs : List Char) : Nat :=
  cs.foldl (fun n c => 10 * n + (c.toNat - 48)) 0

/-- Optional sign; returns the sign and the rest. -/
def parseSign : List Char → Int × List Char
  | '+' :: r => (1, r)
  | '-' :: r => (-1, r)
  | r => (1, r)

/-- Exponent suffix: digits to the end of the string, else failure. -/
def parseExpDigits (cs : List Char) : Option Int :=
  let (sg, r) := parseSign cs
  let ds := r.takeWhile Char.isDigit
  if ds.isEmpty then none
  else if (r.drop ds.length).isEmpty then some (sg * (digitsVal ds : Int))
  else none

/-- Syntactic phase of float(): sign, integer-part value, fraction-part
value, fraction length, exponent; none if the shape is not a Python float
literal (sign, digits with optional point and fraction, optional
exponent). -/
def pyFloatParts (cs : List Char) : Option (Int × Nat × Nat × Nat × Int) :=
  match cs with
  | [] => none
  | _ =>
    let (sg, r) := parseSign cs
    let ip := r.takeWhile Char.isDigit
    let rest1 := r.drop ip.length
    let fp : List Char := match rest1 with
      | '.' :: t => t.takeWhile Char.isDigit
      | _ => []
    let rest2 : List Char := match rest1 with
      | '.' :: t => t.drop fp.length
      | _ => rest1
    if ip.isEmpty && fp.isEmpty then none
    else
      match rest2 with
      | [] => some (sg, digitsVal ip, digitsVal fp, fp.length, 0)
      | e :: t =>
        if e = 'e' || e = 'E' then
          match parseExpDigits t with
          | some ex => some (sg, digitsVal ip, digitsVal fp, fp.length, ex)
          | none => none
        else none

/-- Python float(s) for finite decimal literals: the exact rational value
of the parsed parts. -/
def pyFloat (s : String) : Option ℚ :=
  match pyFloatParts (pyStrip s).data with
  | none => none
  | some (sg, ipv, fpv, fpl, ex) =>
    some ((sg : ℚ) * ((ipv : ℚ) + (fpv : ℚ) / (10 : ℚ) ^ fpl)
      * (10 : ℚ) ^ ex)

/-! ## whatsapp_sender.py: range validators -/

/-- whatsapp_sender.WhatsAppSender._is_valid_price. -/
def isValidPrice (s : String) : Bool :=
  match pyFloat s with
  | some p => decide ((10 : ℚ) ≤ p ∧ p ≤ 1000)
  | none => false

/-- whatsapp_sender.WhatsAppSender._is_valid_funding_rate. -/
def isValidFundingRate (s : String) : Bool :=
  match pyFloat s with
  | some r => decide ((-1 : ℚ) ≤ r ∧ r ≤ 1)
  | none => false

/-! ## whatsapp_sender.py: _create_whatsapp_summary extraction loops

The price loop (Patterns 1-3) and the funding loop (current rate into
variable 2 resp. 6, change into variable 7) are embedded per line; the
outer for-loop with its extracted flag is the first line whose patterns
accept a candidate. -/

/-- Candidate of price Patterns 1 and 2:
line.split("$")[1].split()[0].replace(",","").replace("(","").replace(")","");
none models a caught IndexError. -/
def dollarCand (line : String) : Option String :=
  match (pySplitCh line '$').drop 1 with
  | [] => none
  | p :: _ =>
    match pyWsSplit p with
    | [] => none
    | w :: _ => some (chDrop ')' (chDrop '(' (chDrop ',' w)))

/-- Greedy match of the regex tail [0-9]+\.?[0-9]* at this position
(the position right after a dollar sign). -/
def takeNumChars (cs : List Char) : List Char :=
  let ds := cs.takeWhile Char.isDigit
  match cs.drop ds.length with
  | '.' :: r => ds ++ '.' :: r.takeWhile Char.isDigit
  | _ => ds

/-- First capture of re.findall for the price Pattern 3 regex: a dollar sign
followed by at least one digit, scanning left to right. -/
def firstDollarNum : List Char → Option String
  | [] => none
  | '$' :: rest =>
    if (rest.takeWhile Char.isDigit).isEmpty then firstDollarNum rest
    else some (String.mk (takeNumChars rest))
  | _ :: rest => firstDollarNum rest

/-- Price Pattern 3: any line with a dollar sign; the first regex capture is
accepted when it passes _is_valid_price and additionally float(m) > 10. -/
def priceAccept3 (line : String) : Option String :=
  if pyIn "$" line then
    match firstDollarNum line.data with
    | some m =>
      if isValidPrice m && (match pyFloat m with
          | some q => decide ((10 : ℚ) < q)
          | none => false) then some m else none
    | none => none
  else none

/-- Price Pattern 2 (money-bag marker), falling through to Pattern 3 when it
does not accept. -/
def priceAccept2 (line : String) : Option String :=
  if pyIn "💰" line && pyIn "$" line then
    match dollarCand line with
    | some c => if isValidPrice c then some c else priceAccept3 line
    | none => priceAccept3 line
  else priceAccept3 line

/-- One iteration of the price-extraction loop: Pattern 1 ("Price:" marker),
then Pattern 2, then Pattern 3. -/
def priceLineAccept (line : String) : Option String :=
  if pyIn "Price:" line && pyIn "$" line then
    match dollarCand line with
    | some c => if isValidPrice c then some c else priceAccept2 line
    | none => priceAccept2 line
  else priceAccept2 line

/-- Template variable 2 after the price-extraction loop of
_create_whatsapp_summary (default "0.00"). -/
def extractPriceVar (analysis : String) : String :=
  ((pySplitCh analysis '\n').findSome? priceLineAccept).getD "0.00"

/-- Every candidate string the price loop computes for this line, before
range validation. -/
def priceCands (line : String) : List String :=
  (if pyIn "Price:" line && pyIn "$" line then (dollarCand line).toList else [])
    ++ (if pyIn "💰" line && pyIn "$" line then (dollarCand line).toList else [])
    ++ (if pyIn "$" line then (firstDollarNum line.data).toList else [])

/-- One iteration of the funding-rate extraction for variable 6:
guard "funding" in line.lower() and "%" in line, then Pattern 1
("Funding:") or (elif) Pattern 2 ("funding_pct"). -/
def fundLineAccept (line : String) : Option String :=
  if pyIn "funding" (pyLower line) && pyIn "%" line then
    if pyIn "Funding:" line then
      match (pySplitCh line ':').drop 1 with
      | [] => none
      | p :: _ =>
        let c := chDrop '(' (pyStrip (firstSeg p '%'))
        if isValidFundingRate c then some c else none
    else if pyIn "funding_pct" (pyLower line) then
      match (pySplitCh line ':').drop 1 with
      | [] => none
      | p :: _ =>
        let c := chDrop ',' (pyStrip p)
        if isValidFundingRate c then some c else none
    else none
  else none

/-- Template variable 6 after the funding loop (default "0.000"). -/
def extractFundVar (analysis : String) : String :=
  ((pySplitCh analysis '\n').findSome? fundLineAccept).getD "0.000"

/-- Candidates the variable-6 extraction computes for this line. -/
def fundCands (line : String) : List String :=
  if pyIn "funding" (pyLower line) && pyIn "%" line then
    if pyIn "Funding:" line then
      match (pySplitCh line ':').drop 1 with
      | [] => []
      | p :: _ => [chDrop '(' (pyStrip (firstSeg p '%'))]
    else if pyIn "funding_pct" (pyLower line) then
      match (pySplitCh line ':').drop 1 with
      | [] => []
      | p :: _ => [chDrop ',' (pyStrip p)]
    else []
  else []

/-- One iteration of the funding-change extraction for variable 7:
guard "funding" in line.lower(), then the delta pattern or (elif)
"funding_6h_change". -/
def fundChgLineAccept (line : String) : Option String :=
  if pyIn "funding" (pyLower line) then
    if pyIn "6h Δ" line || pyIn "6h δ" (pyLower line) then
      match (if pyIn "Δ" line then (pySplitCh line 'Δ').drop 1
             else (pySplitCh line 'δ').drop 1) with
      | [] => none
      | p :: _ =>
        let c := chDrop ')' (chDrop '(' (pyStrip (firstSeg p '%')))
        if isValidFundingRate c then some c else none
    else if pyIn "funding_6h_change" (pyLower line) then
      match (pySplitCh line ':').drop 1 with
      | [] => none
      | p :: _ =>
        let c := chDrop ',' (pyStrip p)
        if isValidFundingRate c then some c else none
    else none
  else none

/-- Template variable 7 after the funding loop (default "0.000"). -/
def extractFundChgVar (analysis : String) : String :=
  ((pySplitCh analysis '\n').findSome? fundChgLineAccept).getD "0.000"

/-- Candidates the variable-7 extraction computes for this line. -/
def fundChgCands (line : String) : List String :=
  if pyIn "funding" (pyLower line) then
    if pyIn "6h Δ" line || pyIn "6h δ" (pyLower line) then
      match (if pyIn "Δ" line then (pySplitCh line 'Δ').drop 1
             else (pySplitCh line 'δ').drop 1) with
      | [] => []
      | p :: _ => [chDrop ')' (chDrop '(' (pyStrip (firstSeg p '%')))]
    else if pyIn "funding_6h_change" (pyLower line) then
      match (pySplitCh line ':').drop 1 with
      | [] => []
      | p :: _ => [chDrop ',' (pyStrip p)]
    else []
  else []

/-! ## whatsapp_sender.py: _sanitize_template_vars

The clock string datetime.now().strftime("%H:%M") is passed in as nowHM. -/

/-- Fallback table of _sanitize_template_vars (fallbacks.get(key, "N/A")). -/
def pyFallback (nowHM : String) (k : String) : String :=
  if k = "1" then nowHM
  else if k = "2" then "0.00"
  else if k = "3" then "0.0"
  else if k = "4" then "0"
  else if k = "5" then "0.0"
  else if k = "6" then "0.000"
  else if k = "7" then "0.000"
  else if k = "8" then "0.00"
  else if k = "9" then "WAIT"
  else if k = "10" then "No clear setup"
  else if k = "11" then "Medium risk"
  else if k = "12" then "Monitor levels"
  else "N/A"

/-- The cleaned value before the emptiness check: strip, replace the three
control characters by spaces, truncate to the per-key limit. -/
def sanitizeClean (k v : String) : String :=
  let cv := pyStrip v
  let cv := chSwap '\t' ' ' (chSwap '\r' ' ' (chSwap '\n' ' ' cv))
  if k = "10" || k = "11" || k = "12" then strTake cv 200 else strTake cv 20

/-- Sanitized value of one template variable: empty or all-whitespace cleaned
values are replaced by the fallback for the key. -/
def sanitizeValue (nowHM k v : String) : String :=
  let cv := sanitizeClean k v
  if cv.data.all pyIsSpace then pyFallback nowHM k else cv

/-- whatsapp_sender.WhatsAppSender._sanitize_template_vars over an
association list standing for the dict. -/
def sanitizeTemplateVars (nowHM : String) (tv : List (String × String)) :
    List (String × String) :=
  tv.map (fun kv => (kv.1, sanitizeValue nowHM kv.1 kv.2))

/-! ## whatsapp_sender.py: send_message

The Twilio client, the parsed recipient list and the template SID are the
configuration inputs; the per-recipient create/status-check block is
abstracted by the oracle `outcome` (whether that recipient ends up counting
towards any_success). The returned list collects the whatsapp:-prefixed
destination of every messages.create call that is attempted. -/

/-- recipient.replace("+","").replace(" ","").replace("-",""). -/
def cleanNumber (r : String) : String :=
  chDrop '-' (chDrop ' ' (chDrop '+' r))

/-- Python str.isdigit(): nonempty and all digits. -/
def pyIsDigitStr (s : String) : Bool :=
  !s.data.isEmpty && s.data.all Char.isDigit

/-- Escaped length of one character in json.dumps (ensure_ascii default). -/
def jsonEscLen (c : Char) : Nat :=
  if c = '"' || c = '\\' then 2
  else if c = '\n' || c = '\r' || c = '\t' || c = '\x08' || c = '\x0c' then 2
  else if c.toNat < 32 then 6
  else if c.toNat < 128 then 1
  else if c.toNat ≤ 0xFFFF then 6
  else 12

/-- len(json.dumps(s)) for a string: the two quotes plus escaped chars. -/
def jsonStrLen (s : String) : Nat := 2 + (s.data.map jsonEscLen).sum

/-- len(json.dumps(tv)) for a dict of strings with default separators. -/
def jsonDumpLen (tv : List (String × String)) : Nat :=
  if tv.isEmpty then 2
  else 2 + ((tv.map (fun kv => jsonStrLen kv.1 + 2 + jsonStrLen kv.2)).sum)
    + 2 * (tv.length - 1)

/-- The twelve required template variable keys. -/
def requiredVars : List String :=
  ["1", "2", "3", "4", "5", "6", "7", "8", "9", "10", "11", "12"]

/-- One iteration of the recipient loop: skip invalid numbers and oversized
payloads, otherwise attempt a send to whatsapp:<cleaned>. -/
def sendStep (payloadLen : Nat) (outcome : String → Bool)
    (acc : Bool × List String) (r : String) : Bool × List String :=
  let cn := cleanNumber r
  if !pyIsDigitStr cn then acc
  else if 10000 < payloadLen then acc
  else ((acc.1 || outcome r), acc.2 ++ ["whatsapp:" ++ cn])

/-- whatsapp_sender.WhatsAppSender.send_message: early validation returns
(false, no sends); otherwise the recipient loop runs and any_success is
collected. -/
def sendMessage (clientOk : Bool) (recipients : List String)
    (templateSid : Option String) (templateVars : Option (List (String × String)))
    (outcome : String → Bool) : Bool × List String :=
  if !clientOk then (false, [])
  else if recipients.isEmpty then (false, [])
  else
    match templateSid with
    | none => (false, [])
    | some _ =>
      match templateVars with
      | none => (false, [])
      | some tv =>
        if tv.isEmpty then (false, [])
        else if !(requiredVars.all (fun v => tv.any (fun kv => kv.1 == v))) then
          (false, [])
        else
          recipients.foldl (sendStep (jsonDumpLen tv) outcome) (false, [])

/-! ## sol_hybrid_analysis.py / sol_hourly_analysis.py: _api_get

The network is an oracle mapping the index of the request to its outcome:
either a raised exception or a response carrying a status code and the
result of response.json(). A call counter is threaded to record how many
GET requests a call issues. -/

inductive HttpOutcome (V : Type) where
  | exn (msg : String)
  | resp (status : Nat) (body : Except String V)

/-- Handling of one outcome by _api_get: parsed JSON on a 200 response,
None on any other status and on any exception (including one raised by
response.json()). -/
def apiGetOnce {V : Type} (o : HttpOutcome V) : Option V :=
  match o with
  | .exn _ => none
  | .resp status body =>
    if status = 200 then
      match body with
      | .ok v => some v
      | .error _ => none
    else none

/-- _api_get (identical in sol_hybrid_analysis.py and
sol_hourly_analysis.py): performs the single GET numbered `calls` and
returns the result together with the advanced counter. -/
def apiGet {V : Type} (net : Nat → HttpOutcome V) (calls : Nat) :
    Option V × Nat :=
  (apiGetOnce (net calls), calls + 1)

/-! ## sol_hybrid_analysis.py: derivatives snapshot collectors

API responses are modelled structurally: a response is None or a list of
items; record fields that the code subscripts or .get()s are Option
rationals (none = key missing, which makes float(record[key]) raise). -/

structure OhlcvRec where
  c : Option ℚ

structure OhlcvItem where
  history : Option (List OhlcvRec)

structure OiSnapRec where
  value : Option ℚ

structure OiHistRec where
  c : Option ℚ
  v : Option ℚ
  value : Option ℚ
  oi : Option ℚ

structure OiHistItem where
  history : Option (List OiHistRec)

structure FundSnapRec where
  value : Option ℚ

structure FundHistRec where
  c : Option ℚ
  value : Option ℚ

structure FundHistItem where
  history : Option (List FundHistRec)

structure LiqRec where
  l : Option ℚ
  s : Option ℚ

structure LiqItem where
  history : Option (List LiqRec)

/-- The list comprehension [float(h["c"]) for h in history]: fails (raising
KeyError, caught by the collector) as soon as one record lacks the key. -/
def mapC : List OhlcvRec → Option (List ℚ)
  | [] => some []
  | r :: rs =>
    match r.c with
    | none => none
    | some q =>
      match mapC rs with
      | none => none
      | some qs => some (q :: qs)

/-- sol_hybrid_analysis.SOLHybridAnalysis._collect_price: result
(current_price, price_24h_change, price_6h_change, price_history); a raise
anywhere inside the try leaves the fields assigned so far and the
initialized defaults for the rest. -/
def collectPrice (data : Option (List OhlcvItem)) : ℚ × ℚ × ℚ × List ℚ :=
  match data with
  | none => (0, 0, 0, [])
  | some [] => (0, 0, 0, [])
  | some (it :: _) =>
    match it.history with
    | none => (0, 0, 0, [])
    | some [] => (0, 0, 0, [])
    | some hist =>
      match mapC hist with
      | none => (0, 0, 0, [])
      | some ph =>
        let current := ph.getLastD 0
        let p24 := ph.headD 0
        if p24 = 0 then (current, 0, 0, ph)
        else
          let ch24 := (current - p24) / p24 * 100
          if 6 < ph.length then
            let p6 := ph.getD (ph.length - 7) 0
            if p6 = 0 then (current, ch24, 0, ph)
            else (current, ch24, (current - p6) / p6 * 100, ph)
          else (current, ch24, 0, ph)

/-- The local _extract helper of _collect_open_interest: first present key
among "c", "v", "value", "oi", else 0.0. -/
def oiExtract (r : OiHistRec) : ℚ :=
  match r.c with
  | some q => q
  | none =>
    match r.v with
    | some q => q
    | none =>
      match r.value with
      | some q => q
      | none =>
        match r.oi with
        | some q => q
        | none => 0

/-- sol_hybrid_analysis.SOLHybridAnalysis._collect_open_interest: result
(oi_usd, oi_24h_change, oi_6h_change, oi_history). A missing "value" key on
the snapshot head raises before anything is assigned; the percent changes
are guarded by Python truthiness of the baseline. -/
def collectOpenInterest (snap : Option (List OiSnapRec))
    (histResp : Option (List OiHistItem)) : ℚ × ℚ × ℚ × List ℚ :=
  let oiUsdE : Except Unit ℚ :=
    match snap with
    | none => .ok 0
    | some [] => .ok 0
    | some (s0 :: _) =>
      match s0.value with
      | none => .error ()
      | some v => .ok v
  match oiUsdE with
  | .error _ => (0, 0, 0, [])
  | .ok oiUsd =>
    match histResp with
    | none => (oiUsd, 0, 0, [])
    | some [] => (oiUsd, 0, 0, [])
    | some (it :: _) =>
      match it.history with
      | none => (oiUsd, 0, 0, [])
      | some [] => (oiUsd, 0, 0, [])
      | some hist =>
        let oiHistory := hist.map oiExtract
        let oi24 := oiHistory.headD 0
        let ch24 := if oi24 = 0 then 0 else (oiUsd - oi24) / oi24 * 100
        if 6 < oiHistory.length then
          let oi6 := oiHistory.getD (oiHistory.length - 7) 0
          let ch6 := if oi6 = 0 then 0 else (oiUsd - oi6) / oi6 * 100
          (oiUsd, ch24, ch6, oiHistory)
        else (oiUsd, ch24, 0, oiHistory)

/-- sol_hybrid_analysis.SOLHybridAnalysis._collect_funding: result
(funding_rate, funding_6h_change, display history scaled by 100). A missing
"value" key on the snapshot head raises before anything is assigned. -/
def collectFunding (dataNow : Option (List FundSnapRec))
    (histResp : Option (List FundHistItem)) : ℚ × ℚ × List ℚ :=
  let rateE : Except Unit ℚ :=
    match dataNow with
    | none => .ok 0
    | some [] => .ok 0
    | some (s0 :: _) =>
      match s0.value with
      | none => .error ()
      | some v => .ok (v * 100)
  match rateE with
  | .error _ => (0, 0, [])
  | .ok rate =>
    match histResp with
    | none => (rate, 0, [])
    | some [] => (rate, 0, [])
    | some (it :: _) =>
      match it.history with
      | none => (rate, 0, [])
      | some [] => (rate, 0, [])
      | some hist =>
        let fh := hist.map (fun h =>
          match h.c with
          | some q => q
          | none =>
            match h.value with
            | some q => q
            | none => 0)
        let ch6 :=
          if 6 < fh.length then rate - (fh.getD (fh.length - 7) 0) * 100
          else 0
        (rate, ch6, fh.map (fun v => v * 100))

/-- The enumerate loop of _collect_liquidations: running totals over all
records at indices i, i+1, ... with the last-six test i >= n - 6;
components (long_24h, short_24h, long_6h, short_6h). -/
def liqSums (n : Nat) : Nat → List LiqRec → ℚ × ℚ × ℚ × ℚ
  | _, [] => (0, 0, 0, 0)
  | i, x :: xs =>
    let rest := liqSums n (i + 1) xs
    let lv := x.l.getD 0
    let sv := x.s.getD 0
    (lv + rest.1, sv + rest.2.1,
      (if n - 6 ≤ i then lv + rest.2.2.1 else rest.2.2.1),
      (if n - 6 ≤ i then sv + rest.2.2.2 else rest.2.2.2))

/-- sol_hybrid_analysis.SOLHybridAnalysis._collect_liquidations: result
(long_liq_24h, short_liq_24h, long_liq_6h, short_liq_6h, liq_6h share of
the 24h total, 0.0 when that total is falsy). -/
def collectLiquidations (data : Option (List LiqItem)) : ℚ × ℚ × ℚ × ℚ × ℚ :=
  let sums : ℚ × ℚ × ℚ × ℚ :=
    match data with
    | none => (0, 0, 0, 0)
    | some [] => (0, 0, 0, 0)
    | some (it :: _) =>
      match it.history with
      | none => (0, 0, 0, 0)
      | some [] => (0, 0, 0, 0)
      | some hist => liqSums hist.length 0 hist
  let total24 := sums.1 + sums.2.1
  let total6 := sums.2.2.1 + sums.2.2.2
  (sums.1, sums.2.1, sums.2.2.1, sums.2.2.2,
    if total24 = 0 then 0 else total6 / total24)

/-! ## sol_hybrid_analysis.py: arithmetic helpers (static methods)

statistics.pstdev takes a square root; the square-root function on floats is
abstracted as a parameter, only ever used through the guards the code
itself applies. -/

/-- statistics.mean. -/
def listMean (xs : List ℚ) : ℚ := xs.sum / (xs.length : ℚ)

/-- statistics.pvariance (population variance). -/
def pvariance (xs : List ℚ) : ℚ :=
  ((xs.map (fun x => (x - listMean xs) ^ 2)).sum) / (xs.length : ℚ)

/-- SOLHybridAnalysis._safe_std: 0.0 for fewer than two values, else
statistics.pstdev = sqrt of the population variance. -/
def safeStd (sqrtF : ℚ → ℚ) (values : List ℚ) : ℚ :=
  if values.length < 2 then 0 else sqrtF (pvariance values)

/-- SOLHybridAnalysis._zscore_of_last. -/
def zscoreOfLast (sqrtF : ℚ → ℚ) (series : List ℚ) : ℚ :=
  if series.length < 3 then 0
  else
    let meanVal := listMean series.dropLast
    let stdVal := safeStd sqrtF series.dropLast
    if stdVal = 0 then 0 else (series.getLastD 0 - meanVal) / stdVal

/-- SOLHybridAnalysis._pct_change. -/
def pctChange (a b : ℚ) : ℚ :=
  if b = 0 then 0 else (a - b) / b * 100

/-- The loop body of SOLHybridAnalysis._returns over consecutive pairs. -/
def returnsAux : List ℚ → List ℚ
  | a :: b :: rest =>
    (if a = 0 then 0 else (b - a) / a) :: returnsAux (b :: rest)
  | _ => []

/-- SOLHybridAnalysis._returns. -/
def returnsList (series : List ℚ) : List ℚ :=
  if series.length < 2 then [] else returnsAux series

/-- The denominator (sum_sq_x * sum_sq_y) ** 0.5 of
enhanced_solana_workflow.EnhancedSolanaWorkflow._calculate_correlation. -/
def corrDenom (sqrtF : ℚ → ℚ) (xs ys : List ℚ) : ℚ :=
  let mx := listMean xs
  let my := listMean ys
  sqrtF (((xs.map (fun x => (x - mx) ^ 2)).sum)
    * ((ys.map (fun y => (y - my) ^ 2)).sum))

/-- enhanced_solana_workflow.EnhancedSolanaWorkflow._calculate_correlation. -/
def calcCorrelation (sqrtF : ℚ → ℚ) (xs ys : List ℚ) : ℚ :=
  if xs.length ≠ ys.length || xs.length < 2 then 0
  else
    let mx := listMean xs
    let my := listMean ys
    let num := ((xs.zip ys).map (fun p => (p.1 - mx) * (p.2 - my))).sum
    let den := corrDenom sqrtF xs ys
    if den ≠ 0 then num / den else 0

/-! ## sol_hybrid_analysis.py: _compute_confidence

The snapshot fields the function reads via s.get(key, 0.0), and the regime
dict via regime.get, are modelled as structures; the z dict is received and
ignored exactly as in the source. -/

structure CSnap where
  price6hChange : ℚ
  oi6hChange : ℚ
  fundingPct : ℚ
  ls : ℚ

structure Regime where
  trend : String
  chop : Bool

/-- The score/driver accumulation of _compute_confidence before the signal
is composed: (long_score, short_score, drivers). -/
def computeScores (s : CSnap) (regime : Regime) (divergences : List String) :
    ℤ × ℤ × List String :=
  let p6 := s.price6hChange
  let oi6 := s.oi6hChange
  let st0 : ℤ × ℤ × List String := (50, 50, [])
  let st1 :=
    if p6 > 0.5 ∧ oi6 > 0.5 then
      (st0.1 + 15, st0.2.1, st0.2.2 ++ ["Price↑ + OI↑ (continuation)"])
    else st0
  let st2 :=
    if p6 < -0.5 ∧ oi6 < -0.5 then
      (st1.1, st1.2.1 + 15, st1.2.2 ++ ["Price↓ + OI↓ (continuation)"])
    else st1
  let st3 :=
    if s.fundingPct > 0.02 then
      (st2.1 + 10, st2.2.1, st2.2.2 ++ ["Funding positive"])
    else st2
  let st4 :=
    if s.fundingPct < -0.02 then
      (st3.1, st3.2.1 + 10, st3.2.2 ++ ["Funding negative"])
    else st3
  let st5 :=
    if s.ls > 3 then
      (st4.1, st4.2.1 + 5, st4.2.2 ++ ["Crowded longs (L/S>"])
    else st4
  let st6 :=
    if s.ls < 1 ∧ s.ls > 0 then
      (st5.1 + 5, st5.2.1, st5.2.2 ++ ["Crowded shorts (L/S<)"])
    else st5
  let st7 := if regime.trend = "up" then (st6.1 + 5, st6.2.1, st6.2.2) else st6
  let st8 := if regime.trend = "down" then (st7.1, st7.2.1 + 5, st7.2.2) else st7
  let st9 :=
    if regime.chop then (st8.1 - 5, st8.2.1 - 5, st8.2.2 ++ ["Chop regime"])
    else st8
  if divergences.isEmpty then st9
  else (st9.1 - 5, st9.2.1 - 5, st9.2.2 ++ divergences)

/-- sol_hybrid_analysis.SOLHybridAnalysis._compute_confidence: result
(confidence, auto signal, first four drivers). -/
def computeConfidence (s : CSnap) (regime : Regime)
    (z : List (String × ℚ)) (divergences : List String) :
    ℤ × String × List String :=
  let _ := z
  let sc := computeScores s regime divergences
  let delta := sc.1 - sc.2.1
  if delta > 10 then (min 100 (max 0 sc.1), "LONG", sc.2.2.take 4)
  else if delta < -10 then (min 100 (max 0 sc.2.1), "SHORT", sc.2.2.take 4)
  else (min 100 (max 0 (50 - |delta|)), "WAIT", sc.2.2.take 4)

/-! ## sol_hourly_analysis.py: should_send_alert

A snapshot is the dict built by get_current_snapshot (saved back as the
last-run state); the formatted reason strings are modelled by a reason tag,
with firstAnalysis standing for "First analysis" and noSignificantChanges
for "No significant changes". -/

structure HSnap where
  timestamp : ℤ
  price : ℚ
  price24hChange : ℚ
  oiUsd : ℚ
  oi24hChange : ℚ
  fundingPct : ℚ
  predictedFundingPct : ℚ
  ls : ℚ
  ls24hAvg : ℚ
  ls24hChange : ℚ
  longLiq24h : ℚ
  shortLiq24h : ℚ
  longLiq6h : ℚ
  shortLiq6h : ℚ
  basisPct : ℚ

inductive AlertReason where
  | firstAnalysis
  | priceMoved
  | oiChanged
  | fundingShifted
  | lsChanged
  | momentumShift
  | oi24hMoved
  | ls24hMoved
  | highLiquidations
  | fourHoursElapsed
  | noSignificantChanges
deriving DecidableEq

/-- A quiet snapshot used to exercise the alert logic at concrete inputs. -/
def quietSnap (ts : ℤ) : HSnap :=
  ⟨ts, 100, 0, 500, 0, 0, 0, 2, 2, 0, 0, 0, 0, 0, 0⟩

/-- sol_hourly_analysis.HourlySolAnalysis.should_send_alert. -/
def shouldSendAlert (current : HSnap) (last : Option HSnap) :
    Bool × AlertReason :=
  match last with
  | none => (true, .firstAnalysis)
  | some l =>
    let priceChange := |current.price - l.price| / l.price * 100
    let oiChange := |current.oiUsd - l.oiUsd| / l.oiUsd * 100
    let fundingChange := |current.fundingPct - l.fundingPct|
    let lsChange := |current.ls - l.ls| / l.ls * 100
    let priceMomentumChange := |current.price24hChange - l.price24hChange|
    if priceChange > 2 then (true, .priceMoved)
    else if oiChange > 5 then (true, .oiChanged)
    else if fundingChange > 0.05 then (true, .fundingShifted)
    else if lsChange > 10 then (true, .lsChanged)
    else if priceMomentumChange > 3 then (true, .momentumShift)
    else if |current.oi24hChange| > 8 then (true, .oi24hMoved)
    else if |current.ls24hChange| > 15 then (true, .ls24hMoved)
    else if current.longLiq6h + current.shortLiq6h > 5000000 then
      (true, .highLiquidations)
    else if ((current.timestamp - l.timestamp : ℤ) : ℚ) / 3600 > 4 then
      (true, .fourHoursElapsed)
    else (false, .noSignificantChanges)

/-! ## advanced_crypto_agent.py: intelligent_analysis fallback chain

The chat-completions endpoint is an oracle from a model name to either the
returned message content or the raised error message. The embedding also
returns the list of models invoked, in order. -/

/-- advanced_crypto_agent.AdvancedCryptoAgent.intelligent_analysis: the
try/except chain over the models "o3", "o3-mini", "gpt-4". -/
def intelligentAnalysis (call : String → Except String String) :
    String × List String :=
  match call "o3" with
  | .ok t => (t, ["o3"])
  | .error e1 =>
    match call "o3-mini" with
    | .ok t => (t, ["o3", "o3-mini"])
    | .error e2 =>
      match call "gpt-4" with
      | .ok t => (t, ["o3", "o3-mini", "gpt-4"])
      | .error e3 =>
        ("AI analysis unavailable. o3 error: " ++ e1
            ++ ", o3-mini error: " ++ e2 ++ ", GPT-4 error: " ++ e3,
          ["o3", "o3-mini", "gpt-4"])

/-! ## Helper lemmas -/

theorem findSome?_eq_none_of {α β : Type} (f : α → Option β) (l : List α)
    (h : ∀ x ∈ l, f x = none) : l.findSome? f = none := by
  induction l with
  | nil => rfl
  | cons a t ih =>
    have ha := h a (List.mem_cons_self a t)
    simp only [List.findSome?, ha]
    exact ih (fun x hx => h x (List.mem_cons_of_mem a hx))

theorem mem_of_findSome?_eq_some {α β : Type} {f : α → Option β} {l : List α}
    {b : β} (h : l.findSome? f = some b) : ∃ x ∈ l, f x = some b := by
  induction l with
  | nil => simp [List.findSome?] at h
  | cons a t ih =>
    simp only [List.findSome?] at h
    cases ha : f a with
    | some c =>
      rw [ha] at h
      have hcb : some c = some b := h
      exact ⟨a, List.mem_cons_self a t, by rw [ha, Option.some.inj hcb]⟩
    | none =>
      rw [ha] at h
      have ht : t.findSome? f = some b := h
      obtain ⟨x, hx, hfx⟩ := ih ht
      exact ⟨x, List.mem_cons_of_mem a hx, hfx⟩

/-! ## Claim theorems -/

/-- C2: intelligent_analysis first calls the chat-completion endpoint with
model o3; exactly when that raises it calls o3-mini; exactly when that also
raises it calls gpt-4; the first successful text is returned, and when all
three raise it returns an error string embedding all three error
messages. -/
theorem intelligent_analysis_fallback_chain
    (call : String → Except String String) :
    ((intelligentAnalysis call).2.head? = some "o3")
    ∧ (("o3-mini" ∈ (intelligentAnalysis call).2) ↔
        ∃ e, call "o3" = .error e)
    ∧ (("gpt-4" ∈ (intelligentAnalysis call).2) ↔
        ((∃ e, call "o3" = .error e) ∧ ∃ e, call "o3-mini" = .error e))
    ∧ (∀ t, call "o3" = .ok t → (intelligentAnalysis call).1 = t)
    ∧ (∀ e1 t, call "o3" = .error e1 → call "o3-mini" = .ok t →
        (intelligentAnalysis call).1 = t)
    ∧ (∀ e1 e2 t, call "o3" = .error e1 → call "o3-mini" = .error e2 →
        call "gpt-4" = .ok t → (intelligentAnalysis call).1 = t)
    ∧ (∀ e1 e2 e3, call "o3" = .error e1 → call "o3-mini" = .error e2 →
        call "gpt-4" = .error e3 →
        (intelligentAnalysis call).1 =
          "AI analysis unavailable. o3 error: " ++ e1
            ++ ", o3-mini error: " ++ e2 ++ ", GPT-4 error: " ++ e3) := by
  cases h1 : call "o3" with
  | ok t1 =>
    have hIA : intelligentAnalysis call = (t1, ["o3"]) := by
      simp [intelligentAnalysis, h1]
    refine ⟨by rw [hIA]; rfl, ?_, ?_, ?_, ?_, ?_, ?_⟩
    · constructor
      · intro hm
        rw [hIA] at hm
        have hm2 : "o3-mini" ∈ (["o3"] : List String) := hm
        exact absurd hm2 (by decide)
      · rintro ⟨e, he⟩
        exact Except.noConfusion he
    · constructor
      · intro hm
        rw [hIA] at hm
        have hm2 : "gpt-4" ∈ (["o3"] : List String) := hm
        exact absurd hm2 (by decide)
      · rintro ⟨⟨e, he⟩, -⟩
        exact Except.noConfusion he
    · intro t ht
      rw [hIA]
      exact Except.ok.inj ht
    · intro e1 t he _
      exact Except.noConfusion he
    · intro e1 e2 t he _ _
      exact Except.noConfusion he
    · intro e1 e2 e3 he _ _
      exact Except.noConfusion he
  | error e1 =>
    cases h2 : call "o3-mini" with
    | ok t2 =>
      have hIA : intelligentAnalysis call = (t2, ["o3", "o3-mini"]) := by
        simp [intelligentAnalysis, h1, h2]
      refine ⟨by rw [hIA]; rfl, ?_, ?_, ?_, ?_, ?_, ?_⟩
      · constructor
        · intro _
          exact ⟨e1, rfl⟩
        · intro _
          rw [hIA]
          exact List.mem_cons_of_mem _ (List.mem_cons_self _ _)
      · constructor
        · intro hm
          rw [hIA] at hm
          have hm2 : "gpt-4" ∈ (["o3", "o3-mini"] : List String) := hm
          exact absurd hm2 (by decide)
        · rintro ⟨-, e, he⟩
          exact Except.noConfusion he
      · intro t ht
        exact Except.noConfusion ht
      · intro e t _ hok
        rw [hIA]
        exact Except.ok.inj hok
      · intro e e2' t _ he _
        exact Except.noConfusion he
      · intro e e2' e3 _ he _
        exact Except.noConfusion he
    | error e2 =>
      cases h3 : call "gpt-4" with
      | ok t3 =>
        have hIA : intelligentAnalysis call =
            (t3, ["o3", "o3-mini", "gpt-4"]) := by
          simp [intelligentAnalysis, h1, h2, h3]
        refine ⟨by rw [hIA]; rfl, ?_, ?_, ?_, ?_, ?_, ?_⟩
        · exact ⟨fun _ => ⟨e1, rfl⟩, fun _ => by
            rw [hIA]
            exact List.mem_cons_of_mem _ (List.mem_cons_self _ _)⟩
        · exact ⟨fun _ => ⟨⟨e1, rfl⟩, ⟨e2, rfl⟩⟩, fun _ => by
            rw [hIA]
            exact List.mem_cons_of_mem _
              (List.mem_cons_of_mem _ (List.mem_cons_self _ _))⟩
        · intro t ht
          exact Except.noConfusion ht
        · intro e t _ he
          exact Except.noConfusion he
        · intro e e2' t _ _ he
          rw [hIA]
          exact Except.ok.inj he
        · intro e e2' e3 _ _ he
          exact Except.noConfusion he
      | error e3 =>
        have hIA : intelligentAnalysis call =
            ("AI analysis unavailable. o3 error: " ++ e1
              ++ ", o3-mini error: " ++ e2 ++ ", GPT-4 error: " ++ e3,
              ["o3", "o3-mini", "gpt-4"]) := by
          simp [intelligentAnalysis, h1, h2, h3]
        refine ⟨by rw [hIA]; rfl, ?_, ?_, ?_, ?_, ?_, ?_⟩
        · exact ⟨fun _ => ⟨e1, rfl⟩, fun _ => by
            rw [hIA]
            exact List.mem_cons_of_mem _ (List.mem_cons_self _ _)⟩
        · exact ⟨fun _ => ⟨⟨e1, rfl⟩, ⟨e2, rfl⟩⟩, fun _ => by
            rw [hIA]
            exact List.mem_cons_of_mem _
              (List.mem_cons_of_mem _ (List.mem_cons_self _ _))⟩
        · intro t ht
          exact Except.noConfusion ht
        · intro e t _ he
          exact Except.noConfusion he
        · intro e e2' t _ _ he
          exact Except.noConfusion he
        · intro e1' e2' e3' he1 he2 he3
          obtain rfl := Except.error.inj he1
          obtain rfl := Except.error.inj he2
          obtain rfl := Except.error.inj he3
          rw [hIA]

/-- Witness for C2: with o3 and o3-mini failing and gpt-4 succeeding, the
gpt-4 text is returned. -/
theorem intelligent_analysis_fallback_chain_witness :
    (intelligentAnalysis (fun m =>
      if m = "o3" then Except.error "a"
      else if m = "o3-mini" then Except.error "b"
      else Except.ok "hi")).1 = "hi" :=
  (intelligent_analysis_fallback_chain _).2.2.2.2.2.1 "a" "b" "hi" rfl rfl rfl

/-- C3: _api_get issues exactly one HTTP GET and returns the parsed JSON
body on a 200 response; on any other status and on any raised exception
(including a parse failure inside response.json()) it returns None rather
than raising. -/
theorem api_get_single_request {V : Type} (net : Nat → HttpOutcome V)
    (n : Nat) :
    ((apiGet net n).2 = n + 1)
    ∧ (∀ v, net n = .resp 200 (.ok v) → (apiGet net n).1 = some v)
    ∧ (∀ st body, net n = .resp st body → st ≠ 200 → (apiGet net n).1 = none)
    ∧ (∀ e, net n = .exn e → (apiGet net n).1 = none)
    ∧ (∀ e, net n = .resp 200 (.error e) → (apiGet net n).1 = none) := by
  refine ⟨rfl, ?_, ?_, ?_, ?_⟩
  · intro v hv
    simp [apiGet, apiGetOnce, hv]
  · intro st body hb hst
    simp [apiGet, apiGetOnce, hb, hst]
  · intro e he
    simp [apiGet, apiGetOnce, he]
  · intro e he
    simp [apiGet, apiGetOnce, he]

/-- Witness for C3: a 200 response with parsed body 7 is returned, and the
request counter advanced by one. -/
theorem api_get_single_request_witness :
    (apiGet (fun _ => HttpOutcome.resp 200 (Except.ok (7 : Nat))) 0).1 = some 7
    ∧ (apiGet (fun _ => HttpOutcome.resp 200 (Except.ok (7 : Nat))) 0).2 = 1 :=
  ⟨(api_get_single_request _ 0).2.1 7 rfl, (api_get_single_request _ 0).1⟩

/-- C9: _compute_confidence returns an integer confidence in [0, 100], the
auto signal LONG exactly when long_score - short_score > 10, SHORT exactly
when it is < -10, WAIT otherwise, and at most four drivers. -/
theorem compute_confidence_shape (s : CSnap) (regime : Regime)
    (z : List (String × ℚ)) (divergences : List String) :
    (0 ≤ (computeConfidence s regime z divergences).1
      ∧ (computeConfidence s regime z divergences).1 ≤ 100)
    ∧ ((computeConfidence s regime z divergences).2.1 = "LONG" ↔
        (computeScores s regime divergences).1
          - (computeScores s regime divergences).2.1 > 10)
    ∧ ((computeConfidence s regime z divergences).2.1 = "SHORT" ↔
        (computeScores s regime divergences).1
          - (computeScores s regime divergences).2.1 < -10)
    ∧ ((computeConfidence s regime z divergences).2.1 = "WAIT" ↔
        (¬((computeScores s regime divergences).1
            - (computeScores s regime divergences).2.1 > 10)
          ∧ ¬((computeScores s regime divergences).1
            - (computeScores s regime divergences).2.1 < -10)))
    ∧ (computeConfidence s regime z divergences).2.2.length ≤ 4 := by
  have hbound : ∀ x : ℤ, 0 ≤ min 100 (max 0 x) ∧ min 100 (max 0 x) ≤ 100 := by
    intro x
    exact ⟨le_min (by norm_num) (le_max_left 0 x), min_le_left _ _⟩
  have htake : ∀ l : List String, (l.take 4).length ≤ 4 := by
    intro l
    rw [List.length_take]
    exact min_le_left _ _
  by_cases hd1 : (computeScores s regime divergences).1
      - (computeScores s regime divergences).2.1 > 10
  · have hc : computeConfidence s regime z divergences =
        (min 100 (max 0 (computeScores s regime divergences).1), "LONG",
          (computeScores s regime divergences).2.2.take 4) := by
      simp only [computeConfidence, if_pos hd1]
    rw [hc]
    refine ⟨hbound _, ?_, ?_, ?_, htake _⟩
    · simp [hd1]
    · constructor
      · intro h
        exact absurd (show ("LONG" : String) = "SHORT" from h) (by decide)
      · intro h
        omega
    · constructor
      · intro h
        exact absurd (show ("LONG" : String) = "WAIT" from h) (by decide)
      · intro h
        exact absurd hd1 h.1
  · by_cases hd2 : (computeScores s regime divergences).1
        - (computeScores s regime divergences).2.1 < -10
    · have hc : computeConfidence s regime z divergences =
          (min 100 (max 0 (computeScores s regime divergences).2.1), "SHORT",
            (computeScores s regime divergences).2.2.take 4) := by
        simp only [computeConfidence, if_neg hd1, if_pos hd2]
      rw [hc]
      refine ⟨hbound _, ?_, ?_, ?_, htake _⟩
      · constructor
        · intro h
          exact absurd (show ("SHORT" : String) = "LONG" from h) (by decide)
        · intro h
          omega
      · simp [hd2]
      · constructor
        · intro h
          exact absurd (show ("SHORT" : String) = "WAIT" from h) (by decide)
        · intro h
          exact absurd hd2 h.2
    · have hc : computeConfidence s regime z divergences =
          (min 100 (max 0 (50 - |(computeScores s regime divergences).1
              - (computeScores s regime divergences).2.1|)), "WAIT",
            (computeScores s regime divergences).2.2.take 4) := by
        simp only [computeConfidence, if_neg hd1, if_neg hd2]
      rw [hc]
      refine ⟨hbound _, ?_, ?_, ?_, htake _⟩
      · constructor
        · intro h
          exact absurd (show ("WAIT" : String) = "LONG" from h) (by decide)
        · intro h
          exact absurd h hd1
      · constructor
        · intro h
          exact absurd (show ("WAIT" : String) = "SHORT" from h) (by decide)
        · intro h
          exact absurd h hd2
      · simp [hd1, hd2]

set_option maxHeartbeats 1000000 in
/-- C6: should_send_alert returns (True, First analysis) when there is no
last state; with a last state having non-zero price, oi_usd and ls_ratio it
returns True whenever more than 4 hours (14400 seconds) elapsed, and it
returns (False, No significant changes) only when every significance
threshold is unmet and at most 4 hours elapsed. -/
theorem should_send_alert_cadence (current l : HSnap)
    (hp : l.price ≠ 0) (ho : l.oiUsd ≠ 0) (hl : l.ls ≠ 0) :
    (∀ c : HSnap, shouldSendAlert c none = (true, .firstAnalysis))
    ∧ (current.timestamp - l.timestamp > 14400 →
        (shouldSendAlert current (some l)).1 = true)
    ∧ (shouldSendAlert current (some l) = (false, .noSignificantChanges) →
        (|current.price - l.price| / l.price * 100 ≤ 2
          ∧ |current.oiUsd - l.oiUsd| / l.oiUsd * 100 ≤ 5
          ∧ |current.fundingPct - l.fundingPct| ≤ 0.05
          ∧ |current.ls - l.ls| / l.ls * 100 ≤ 10
          ∧ |current.price24hChange - l.price24hChange| ≤ 3
          ∧ |current.oi24hChange| ≤ 8
          ∧ |current.ls24hChange| ≤ 15
          ∧ current.longLiq6h + current.shortLiq6h ≤ 5000000
          ∧ current.timestamp - l.timestamp ≤ 14400)) := by
  have h3600 : (0 : ℚ) < 3600 := by norm_num
  refine ⟨fun c => rfl, ?_, ?_⟩
  · intro hdiff
    have hq : ((current.timestamp - l.timestamp : ℤ) : ℚ) / 3600 > 4 := by
      rw [gt_iff_lt, lt_div_iff₀ h3600]
      have : (14400 : ℚ) < ((current.timestamp - l.timestamp : ℤ) : ℚ) := by
        exact_mod_cast hdiff
      linarith
    simp only [shouldSendAlert]
    repeat' split
    all_goals first
      | rfl
      | (rename_i hcond; exact absurd hq hcond)
  · intro hres
    simp only [shouldSendAlert] at hres
    split at hres
    · exact absurd (congrArg Prod.fst hres) (by decide)
    · split at hres
      · exact absurd (congrArg Prod.fst hres) (by decide)
      · split at hres
        · exact absurd (congrArg Prod.fst hres) (by decide)
        · split at hres
          · exact absurd (congrArg Prod.fst hres) (by decide)
          · split at hres
            · exact absurd (congrArg Prod.fst hres) (by decide)
            · split at hres
              · exact absurd (congrArg Prod.fst hres) (by decide)
              · split at hres
                · exact absurd (congrArg Prod.fst hres) (by decide)
                · split at hres
                  · exact absurd (congrArg Prod.fst hres) (by decide)
                  · split at hres
                    · exact absurd (congrArg Prod.fst hres) (by decide)
                    · rename_i h1 h2 h3 h4 h5 h6 h7 h8 h9
                      push_neg at h1 h2 h3 h4 h5 h6 h7 h8 h9
                      refine ⟨h1, h2, h3, h4, h5, h6, h7, h8, ?_⟩
                      rw [div_le_iff₀ h3600] at h9
                      push_cast at h9
                      qify
                      linarith

/-- Witness for C6: a stale last state (5 hours old, all thresholds quiet)
still triggers an alert, and the quiet branch implies the bounds. -/
theorem should_send_alert_cadence_witness :
    (shouldSendAlert (quietSnap 18000) (some (quietSnap 0))).1 = true := by
  exact (should_send_alert_cadence (quietSnap 18000) (quietSnap 0)
    (by norm_num [quietSnap]) (by norm_num [quietSnap])
    (by norm_num [quietSnap])).2.1 (by norm_num [quietSnap])

theorem returnsAux_get?_zero : ∀ (s : List ℚ) (i : Nat),
    s.get? i = some 0 → i + 1 < s.length → (returnsAux s).get? i = some 0 := by
  intro s
  induction s with
  | nil =>
    intro i _ hlen
    simp at hlen
  | cons a t ih =>
    intro i hget hlen
    cases t with
    | nil =>
      simp at hlen
    | cons b r =>
      cases i with
      | zero =>
        simp at hget
        simp [returnsAux, hget]
      | succ j =>
        have hget' : (b :: r).get? j = some 0 := hget
        have hlen' : j + 1 < (b :: r).length := by
          simp at hlen ⊢
          omega
        have := ih j hget' hlen'
        simpa [returnsAux] using this

/-- C8: the arithmetic helpers guard their divisions and degenerate inputs:
_pct_change returns 0 on a zero base, _safe_std returns 0 on short lists,
_zscore_of_last returns 0 on short series and on zero prefix deviation,
_returns returns the empty list on short series and substitutes 0 when the
previous element is 0, and _calculate_correlation returns 0 on mismatched
lengths, short lists and a zero denominator. -/
theorem arithmetic_helpers_guarded :
    (∀ a : ℚ, pctChange a 0 = 0)
    ∧ (∀ (sq : ℚ → ℚ) (xs : List ℚ), xs.length < 2 → safeStd sq xs = 0)
    ∧ (∀ (sq : ℚ → ℚ) (s : List ℚ), s.length < 3 → zscoreOfLast sq s = 0)
    ∧ (∀ (sq : ℚ → ℚ) (s : List ℚ), safeStd sq s.dropLast = 0 →
        zscoreOfLast sq s = 0)
    ∧ (∀ s : List ℚ, s.length < 2 → returnsList s = [])
    ∧ (∀ (s : List ℚ) (i : Nat), s.get? i = some 0 → i + 1 < s.length →
        (returnsList s).get? i = some 0)
    ∧ (∀ (sq : ℚ → ℚ) (xs ys : List ℚ), xs.length ≠ ys.length →
        calcCorrelation sq xs ys = 0)
    ∧ (∀ (sq : ℚ → ℚ) (xs ys : List ℚ), xs.length < 2 →
        calcCorrelation sq xs ys = 0)
    ∧ (∀ (sq : ℚ → ℚ) (xs ys : List ℚ), corrDenom sq xs ys = 0 →
        calcCorrelation sq xs ys = 0) := by
  refine ⟨?_, ?_, ?_, ?_, ?_, ?_, ?_, ?_, ?_⟩
  · intro a
    simp [pctChange]
  · intro sq xs h
    simp [safeStd, h]
  · intro sq s h
    simp [zscoreOfLast, h]
  · intro sq s h
    by_cases hlen : s.length < 3
    · simp [zscoreOfLast, hlen]
    · simp [zscoreOfLast, hlen, h]
  · intro s h
    simp [returnsList, h]
  · intro s i hget hlen
    have h2 : ¬(s.length < 2) := by omega
    rw [returnsList, if_neg h2]
    exact returnsAux_get?_zero s i hget hlen
  · intro sq xs ys h
    simp [calcCorrelation, h]
  · intro sq xs ys h
    simp [calcCorrelation, h]
  · intro sq xs ys h
    by_cases hl : xs.length ≠ ys.length || xs.length < 2
    · simp [calcCorrelation, hl]
      intro h1 h2 _
      simp [h1] at hl
      omega
    · simp [calcCorrelation, hl, h]

/-- Witness for C8: concrete degenerate inputs; a constant prefix gives a
zero z-score and a zero correlation denominator gives zero correlation. -/
theorem arithmetic_helpers_guarded_witness :
    safeStd id [(5 : ℚ)] = 0
    ∧ zscoreOfLast id [(1 : ℚ), 1, 1, 7] = 0
    ∧ returnsList [(3 : ℚ)] = []
    ∧ (returnsList [(0 : ℚ), 4, 5]).get? 0 = some 0
    ∧ calcCorrelation id [(1 : ℚ), 2] [(1 : ℚ)] = 0
    ∧ calcCorrelation id [(1 : ℚ), 1] [(2 : ℚ), 5] = 0 := by
  refine ⟨arithmetic_helpers_guarded.2.1 id _ (by norm_num),
    arithmetic_helpers_guarded.2.2.2.1 id _
      (by norm_num [safeStd, pvariance, listMean]),
    arithmetic_helpers_guarded.2.2.2.2.1 _ (by norm_num),
    arithmetic_helpers_guarded.2.2.2.2.2.1 _ 0 (by decide) (by norm_num),
    arithmetic_helpers_guarded.2.2.2.2.2.2.1 id _ _ (by norm_num),
    arithmetic_helpers_guarded.2.2.2.2.2.2.2.2 id _ _
      (by norm_num [corrDenom, listMean])⟩

theorem liqSums_spec (n : Nat) : ∀ (i : Nat) (xs : List LiqRec),
    liqSums n i xs =
      ((xs.map (fun x => x.l.getD 0)).sum,
        (xs.map (fun x => x.s.getD 0)).sum,
        ((xs.map (fun x => x.l.getD 0)).drop (n - 6 - i)).sum,
        ((xs.map (fun x => x.s.getD 0)).drop (n - 6 - i)).sum) := by
  intro i xs
  induction xs generalizing i with
  | nil => simp [liqSums]
  | cons x xs ih =>
    simp only [liqSums, ih (i + 1), List.map_cons]
    by_cases hk : n - 6 ≤ i
    · have h0 : n - 6 - i = 0 := Nat.sub_eq_zero_of_le hk
      have h1 : n - 6 - (i + 1) = 0 := by omega
      simp [hk, h0, h1]
    · have h1 : n - 6 - i = (n - 6 - (i + 1)) + 1 := by omega
      simp [hk, h1]

/-- C7: _collect_liquidations sums l and s over the whole history for the
24h totals and over the last six entries for the 6h totals, with the 6h
ratio equal to the quotient of the totals (0 when the 24h total is zero);
for non-negative inputs each 6h total is bounded by its 24h total and the
ratio lies in [0, 1]. -/
theorem collect_liquidations_sums (h : List LiqRec) (rest : List LiqItem)
    (hne : h ≠ []) :
    ((collectLiquidations (some (LiqItem.mk (some h) :: rest))).1 =
        (h.map (fun x => x.l.getD 0)).sum
      ∧ (collectLiquidations (some (LiqItem.mk (some h) :: rest))).2.1 =
        (h.map (fun x => x.s.getD 0)).sum
      ∧ (collectLiquidations (some (LiqItem.mk (some h) :: rest))).2.2.1 =
        ((h.map (fun x => x.l.getD 0)).drop (h.length - 6)).sum
      ∧ (collectLiquidations (some (LiqItem.mk (some h) :: rest))).2.2.2.1 =
        ((h.map (fun x => x.s.getD 0)).drop (h.length - 6)).sum
      ∧ (collectLiquidations (some (LiqItem.mk (some h) :: rest))).2.2.2.2 =
        (if (h.map (fun x => x.l.getD 0)).sum
            + (h.map (fun x => x.s.getD 0)).sum = 0 then 0
          else (((h.map (fun x => x.l.getD 0)).drop (h.length - 6)).sum
              + ((h.map (fun x => x.s.getD 0)).drop (h.length - 6)).sum)
            / ((h.map (fun x => x.l.getD 0)).sum
              + (h.map (fun x => x.s.getD 0)).sum)))
    ∧ ((∀ x ∈ h, 0 ≤ x.l.getD 0 ∧ 0 ≤ x.s.getD 0) →
        ((collectLiquidations (some (LiqItem.mk (some h) :: rest))).2.2.1 ≤
            (collectLiquidations (some (LiqItem.mk (some h) :: rest))).1
          ∧ (collectLiquidations
              (some (LiqItem.mk (some h) :: rest))).2.2.2.1 ≤
            (collectLiquidations (some (LiqItem.mk (some h) :: rest))).2.1
          ∧ 0 ≤ (collectLiquidations
              (some (LiqItem.mk (some h) :: rest))).2.2.2.2
          ∧ (collectLiquidations
              (some (LiqItem.mk (some h) :: rest))).2.2.2.2 ≤ 1)) := by
  obtain ⟨a, t, rfl⟩ := List.exists_cons_of_ne_nil hne
  have hcol : collectLiquidations (some (LiqItem.mk (some (a :: t)) :: rest)) =
      (((a :: t).map (fun x => x.l.getD 0)).sum,
        ((a :: t).map (fun x => x.s.getD 0)).sum,
        (((a :: t).map (fun x => x.l.getD 0)).drop ((a :: t).length - 6)).sum,
        (((a :: t).map (fun x => x.s.getD 0)).drop ((a :: t).length - 6)).sum,
        (if ((a :: t).map (fun x => x.l.getD 0)).sum
            + ((a :: t).map (fun x => x.s.getD 0)).sum = 0 then 0
          else ((((a :: t).map (fun x => x.l.getD 0)).drop
                ((a :: t).length - 6)).sum
              + (((a :: t).map (fun x => x.s.getD 0)).drop
                ((a :: t).length - 6)).sum)
            / (((a :: t).map (fun x => x.l.getD 0)).sum
              + ((a :: t).map (fun x => x.s.getD 0)).sum))) := by
    simp only [collectLiquidations, liqSums_spec, Nat.sub_zero]
  rw [hcol]
  refine ⟨⟨rfl, rfl, rfl, rfl, rfl⟩, ?_⟩
  intro hnn
  set ls := (a :: t).map (fun x => x.l.getD 0) with hls
  set ss := (a :: t).map (fun x => x.s.getD 0) with hss
  set k := (a :: t).length - 6 with hk
  have hlnn : ∀ y ∈ ls, (0 : ℚ) ≤ y := by
    intro y hy
    rw [hls] at hy
    obtain ⟨x, hx, rfl⟩ := List.mem_map.mp hy
    exact (hnn x hx).1
  have hsnn : ∀ y ∈ ss, (0 : ℚ) ≤ y := by
    intro y hy
    rw [hss] at hy
    obtain ⟨x, hx, rfl⟩ := List.mem_map.mp hy
    exact (hnn x hx).2
  have hl6 : (ls.drop k).sum ≤ ls.sum := by
    have := List.sum_take_add_sum_drop ls k
    have htn : 0 ≤ (ls.take k).sum :=
      List.sum_nonneg (fun y hy => hlnn y (List.take_subset k ls hy))
    linarith
  have hs6 : (ss.drop k).sum ≤ ss.sum := by
    have := List.sum_take_add_sum_drop ss k
    have htn : 0 ≤ (ss.take k).sum :=
      List.sum_nonneg (fun y hy => hsnn y (List.take_subset k ss hy))
    linarith
  have hl6nn : 0 ≤ (ls.drop k).sum :=
    List.sum_nonneg (fun y hy => hlnn y (List.drop_subset k ls hy))
  have hs6nn : 0 ≤ (ss.drop k).sum :=
    List.sum_nonneg (fun y hy => hsnn y (List.drop_subset k ss hy))
  have hlnn' : 0 ≤ ls.sum := List.sum_nonneg hlnn
  have hsnn' : 0 ≤ ss.sum := List.sum_nonneg hsnn
  refine ⟨hl6, hs6, ?_, ?_⟩
  · by_cases hz : ls.sum + ss.sum = 0
    · simp [hz]
    · rw [if_neg hz]
      have hpos : 0 < ls.sum + ss.sum :=
        lt_of_le_of_ne (by linarith) (Ne.symm hz)
      exact div_nonneg (by linarith) (le_of_lt hpos)
  · by_cases hz : ls.sum + ss.sum = 0
    · simp [hz]
    · rw [if_neg hz]
      have hpos : 0 < ls.sum + ss.sum :=
        lt_of_le_of_ne (by linarith) (Ne.symm hz)
      rw [div_le_one hpos]
      linarith

/-- Witness for C7: a two-entry history; the 6h totals cover both entries
and the ratio is 1. -/
theorem collect_liquidations_sums_witness :
    (collectLiquidations
      (some (LiqItem.mk (some [LiqRec.mk (some 3) (some 1),
        LiqRec.mk (some 2) none]) :: []))).2.2.2.2 ≤ 1 := by
  exact ((collect_liquidations_sums
    [LiqRec.mk (some 3) (some 1), LiqRec.mk (some 2) none] []
    (by simp)).2 (by
      intro x hx
      simp only [List.mem_cons, List.mem_singleton] at hx
      rcases hx with rfl | rfl | hx
      · constructor <;> norm_num
      · constructor <;> norm_num
      · exact absurd hx (List.not_mem_nil x))).2.2.2

theorem mapC_eq_none_of_missing {hist : List OhlcvRec} (r : OhlcvRec)
    (hr : r ∈ hist) (hc : r.c = none) : mapC hist = none := by
  induction hist with
  | nil => exact absurd hr (List.not_mem_nil r)
  | cons a t ih =>
    rcases List.mem_cons.mp hr with rfl | hmem
    · simp [mapC, hc]
    · cases ha : a.c with
      | none => simp [mapC, ha]
      | some q =>
        simp only [mapC, ha, ih hmem]

/-- C4: the snapshot collectors _collect_price, _collect_open_interest and
_collect_funding are total: a None response, an empty response, a record
with a missing key (raising KeyError) or a zero baseline (raising
ZeroDivisionError) all yield the tuple with 0.0 for every field not yet
computed and the history assembled so far, never an exception. -/
theorem collectors_recover_from_failures :
    (collectPrice none = (0, 0, 0, ([] : List ℚ))
      ∧ collectPrice (some []) = (0, 0, 0, ([] : List ℚ))
      ∧ collectPrice (some [OhlcvItem.mk none]) = (0, 0, 0, ([] : List ℚ))
      ∧ collectPrice (some [OhlcvItem.mk (some [])]) =
        (0, 0, 0, ([] : List ℚ)))
    ∧ (∀ (hist : List OhlcvRec) (its : List OhlcvItem) (r : OhlcvRec),
        r ∈ hist → r.c = none →
        collectPrice (some (OhlcvItem.mk (some hist) :: its)) =
          (0, 0, 0, ([] : List ℚ)))
    ∧ (∀ (hist : List OhlcvRec) (its : List OhlcvItem) (ph : List ℚ),
        hist ≠ [] → mapC hist = some ph → ph.headD 0 = 0 →
        collectPrice (some (OhlcvItem.mk (some hist) :: its)) =
          (ph.getLastD 0, 0, 0, ph))
    ∧ (collectOpenInterest none none = (0, 0, 0, ([] : List ℚ))
      ∧ ∀ (s : OiSnapRec) (srest : List OiSnapRec)
          (hist : Option (List OiHistItem)), s.value = none →
        collectOpenInterest (some (s :: srest)) hist =
          (0, 0, 0, ([] : List ℚ)))
    ∧ (collectFunding none none = (0, 0, ([] : List ℚ))
      ∧ ∀ (s : FundSnapRec) (srest : List FundSnapRec)
          (hist : Option (List FundHistItem)), s.value = none →
        collectFunding (some (s :: srest)) hist = (0, 0, ([] : List ℚ))) := by
  refine ⟨⟨rfl, rfl, rfl, rfl⟩, ?_, ?_, ⟨rfl, ?_⟩, ⟨rfl, ?_⟩⟩
  · intro hist its r hr hc
    cases hist with
    | nil => exact absurd hr (List.not_mem_nil r)
    | cons a t =>
      simp only [collectPrice, mapC_eq_none_of_missing r hr hc]
  · intro hist its ph hne hmap hhead
    obtain ⟨a, t, rfl⟩ := List.exists_cons_of_ne_nil hne
    simp only [collectPrice, hmap, hhead, eq_self_iff_true, if_true]
  · intro s srest hist hval
    simp only [collectOpenInterest, hval]
  · intro s srest hist hval
    simp only [collectFunding, hval]

/-- Witness for C4: a record without the c key makes _collect_price return
all defaults; a missing value key does the same for open interest. -/
theorem collectors_recover_from_failures_witness :
    collectPrice (some [OhlcvItem.mk (some [OhlcvRec.mk (some 5),
        OhlcvRec.mk none])]) = (0, 0, 0, ([] : List ℚ))
    ∧ collectOpenInterest (some [OiSnapRec.mk none])
        (some [OiHistItem.mk (some [OiHistRec.mk (some 1) none none none])]) =
      (0, 0, 0, ([] : List ℚ)) := by
  constructor
  · exact collectors_recover_from_failures.2.1
      [OhlcvRec.mk (some 5), OhlcvRec.mk none] [] (OhlcvRec.mk none)
      (by simp) rfl
  · exact collectors_recover_from_failures.2.2.2.1.2 (OiSnapRec.mk none)
      [] _ rfl

theorem sendFold_spec (payloadLen : Nat) (outcome : String → Bool) :
    ∀ (rs : List String) (b : Bool) (acc : List String),
    (rs.foldl (sendStep payloadLen outcome) (b, acc)).2 =
      acc ++ (if 10000 < payloadLen then []
        else (rs.filter (fun r => pyIsDigitStr (cleanNumber r))).map
          (fun r => "whatsapp:" ++ cleanNumber r)) := by
  intro rs
  induction rs with
  | nil =>
    intro b acc
    simp
  | cons r rs ih =>
    intro b acc
    by_cases hd : pyIsDigitStr (cleanNumber r)
    · by_cases hp : 10000 < payloadLen
      · have hstep : sendStep payloadLen outcome (b, acc) r = (b, acc) := by
          simp [sendStep, hd, hp]
        simp only [List.foldl_cons, hstep, ih, hp, if_pos, List.filter_cons,
          hd]
      · have hstep : sendStep payloadLen outcome (b, acc) r =
            (b || outcome r, acc ++ ["whatsapp:" ++ cleanNumber r]) := by
          simp [sendStep, hd, hp]
        simp only [List.foldl_cons, hstep, ih]
        simp [hp, List.filter_cons, hd]
    · have hstep : sendStep payloadLen outcome (b, acc) r = (b, acc) := by
        simp [sendStep, hd]
      simp only [List.foldl_cons, hstep, ih]
      simp [List.filter_cons, hd]

/-- C5: send_message returns False with no vendor send attempted when the
client is missing, no recipient is configured, no template SID is set, the
template variables are absent or empty, or a required variable 1..12 is
missing; when it does send, each recipient is cleaned of plus, space and
dash, recipients whose cleaned number is not purely digits are skipped, and
each attempted destination is whatsapp: followed by the cleaned number. -/
theorem send_message_validation (clientOk : Bool) (recipients : List String)
    (sid : Option String) (tv : Option (List (String × String)))
    (outcome : String → Bool) :
    (clientOk = false →
      sendMessage clientOk recipients sid tv outcome = (false, []))
    ∧ (recipients = [] →
      sendMessage clientOk recipients sid tv outcome = (false, []))
    ∧ (sid = none →
      sendMessage clientOk recipients sid tv outcome = (false, []))
    ∧ (tv = none →
      sendMessage clientOk recipients sid tv outcome = (false, []))
    ∧ (tv = some [] →
      sendMessage clientOk recipients sid tv outcome = (false, []))
    ∧ (∀ l v, tv = some l → v ∈ requiredVars → (∀ kv ∈ l, kv.1 ≠ v) →
      sendMessage clientOk recipients sid tv outcome = (false, []))
    ∧ (∀ l x, tv = some l → clientOk = true → recipients ≠ [] →
        sid = some x →
        (requiredVars.all (fun v => l.any (fun kv => kv.1 == v))) = true →
        l ≠ [] →
        (sendMessage clientOk recipients sid tv outcome).2 =
          (if 10000 < jsonDumpLen l then []
            else (recipients.filter
                (fun r => pyIsDigitStr (cleanNumber r))).map
              (fun r => "whatsapp:" ++ cleanNumber r))) := by
  refine ⟨?_, ?_, ?_, ?_, ?_, ?_, ?_⟩
  · intro h
    simp [sendMessage, h]
  · intro h
    cases clientOk with
    | false => simp [sendMessage]
    | true => simp [sendMessage, h]
  · intro h
    cases clientOk with
    | false => simp [sendMessage]
    | true =>
      by_cases hr : recipients.isEmpty
      · simp [sendMessage, hr]
      · simp [sendMessage, hr, h]
  · intro h
    cases clientOk with
    | false => simp [sendMessage]
    | true =>
      by_cases hr : recipients.isEmpty
      · simp [sendMessage, hr]
      · cases sid with
        | none => simp [sendMessage, hr]
        | some x => simp [sendMessage, hr, h]
  · intro h
    cases clientOk with
    | false => simp [sendMessage]
    | true =>
      by_cases hr : recipients.isEmpty
      · simp [sendMessage, hr]
      · cases sid with
        | none => simp [sendMessage, hr]
        | some x => simp [sendMessage, hr, h]
  · intro l v hl hv hmiss
    cases clientOk with
    | false => simp [sendMessage]
    | true =>
      by_cases hr : recipients.isEmpty
      · simp [sendMessage, hr]
      · cases sid with
        | none => simp [sendMessage, hr]
        | some x =>
          have hall : (requiredVars.all
              (fun v => l.any (fun kv => kv.1 == v))) = false := by
            rw [List.all_eq_false]
            refine ⟨v, hv, ?_⟩
            rw [Bool.not_eq_true, List.any_eq_false]
            intro kv hkv
            rw [Bool.not_eq_true]
            exact beq_eq_false_iff_ne.mpr (hmiss kv hkv)
          cases hle : l.isEmpty with
          | true =>
            rw [List.isEmpty_iff] at hle
            subst hle
            simp [sendMessage, hr, hl]
          | false =>
            simp [sendMessage, hr, hl, hle, hall]
  · intro l x hl hc hrne hs hall hlne
    subst hl
    subst hs
    subst hc
    have hr : recipients.isEmpty = false := by
      rw [List.isEmpty_eq_false_iff_exists_mem]
      obtain ⟨a, t, rfl⟩ := List.exists_cons_of_ne_nil hrne
      exact ⟨a, List.mem_cons_self a t⟩
    have hle : l.isEmpty = false := by
      rw [List.isEmpty_eq_false_iff_exists_mem]
      obtain ⟨a, t, rfl⟩ := List.exists_cons_of_ne_nil hlne
      exact ⟨a, List.mem_cons_self a t⟩
    simp only [sendMessage, hr, hle, hall, Bool.not_true, Bool.not_false,
      Bool.false_eq_true, if_false, if_true]
    rw [sendFold_spec]
    simp

/-- Witness for C5: a missing required variable blocks sending, and in a
valid configuration one digit recipient is attempted with the whatsapp:
prefix while a malformed recipient is skipped. -/
theorem send_message_validation_witness :
    sendMessage true ["+94 76"] (some "HX1")
      (some [("1", "x")]) (fun _ => true) = (false, [])
    ∧ (sendMessage true ["+94 76-9", "abc"] (some "HX1")
      (some [("1", "a"), ("2", "a"), ("3", "a"), ("4", "a"), ("5", "a"),
        ("6", "a"), ("7", "a"), ("8", "a"), ("9", "a"), ("10", "a"),
        ("11", "a"), ("12", "a")]) (fun _ => true)).2 = ["whatsapp:94769"] := by
  constructor
  · exact (send_message_validation true ["+94 76"] (some "HX1")
      (some [("1", "x")]) (fun _ => true)).2.2.2.2.2.1 [("1", "x")] "2" rfl
      (by decide) (by decide)
  · have h := (send_message_validation true ["+94 76-9", "abc"] (some "HX1")
      (some [("1", "a"), ("2", "a"), ("3", "a"), ("4", "a"), ("5", "a"),
        ("6", "a"), ("7", "a"), ("8", "a"), ("9", "a"), ("10", "a"),
        ("11", "a"), ("12", "a")]) (fun _ => true)).2.2.2.2.2.2
      [("1", "a"), ("2", "a"), ("3", "a"), ("4", "a"), ("5", "a"),
        ("6", "a"), ("7", "a"), ("8", "a"), ("9", "a"), ("10", "a"),
        ("11", "a"), ("12", "a")] "HX1" rfl rfl (by decide) rfl (by decide)
      (by decide)
    rw [h]
    decide

theorem data_mk (l : List Char) : (String.mk l).data = l := rfl

theorem swapChain_ctl_free (c : Char) :
    ((fun x => if x = '\t' then ' ' else x)
        ((fun x => if x = '\r' then ' ' else x)
          ((fun x => if x = '\n' then ' ' else x) c)) ≠ '\n')
    ∧ ((fun x => if x = '\t' then ' ' else x)
        ((fun x => if x = '\r' then ' ' else x)
          ((fun x => if x = '\n' then ' ' else x) c)) ≠ '\r')
    ∧ ((fun x => if x = '\t' then ' ' else x)
        ((fun x => if x = '\r' then ' ' else x)
          ((fun x => if x = '\n' then ' ' else x) c)) ≠ '\t') := by
  by_cases h1 : c = '\n'
  · subst h1
    decide
  · by_cases h2 : c = '\r'
    · subst h2
      decide
    · by_cases h3 : c = '\t'
      · subst h3
        decide
      · simp [h1, h2, h3]

theorem sanitizeClean_ctl_free (k v : String) :
    ∀ c ∈ (sanitizeClean k v).data, c ≠ '\n' ∧ c ≠ '\r' ∧ c ≠ '\t' := by
  intro c hc
  have hsub : c ∈ (chSwap '\t' ' ' (chSwap '\r' ' '
      (chSwap '\n' ' ' (pyStrip v)))).data := by
    by_cases hk : (k = "10" || k = "11" || k = "12") = true
    · simp only [sanitizeClean, hk, if_true, strTake, data_mk] at hc
      exact List.take_subset _ _ hc
    · rw [Bool.not_eq_true] at hk
      simp only [sanitizeClean, hk, Bool.false_eq_true, if_false, strTake,
        data_mk] at hc
      exact List.take_subset _ _ hc
  simp only [chSwap, data_mk, List.map_map, List.mem_map] at hsub
  obtain ⟨c0, _, rfl⟩ := hsub
  exact swapChain_ctl_free c0

theorem sanitizeClean_length (k v : String) :
    (sanitizeClean k v).data.length ≤
      (if k = "10" ∨ k = "11" ∨ k = "12" then 200 else 20) := by
  by_cases hk : k = "10" ∨ k = "11" ∨ k = "12"
  · have hb : (k = "10" || k = "11" || k = "12") = true := by
      rcases hk with h | h | h <;> simp [h]
    rw [if_pos hk]
    simp only [sanitizeClean, hb, if_true, strTake, data_mk]
    rw [List.length_take]
    exact min_le_left _ _
  · have hb : (k = "10" || k = "11" || k = "12") = false := by
      push_neg at hk
      simp [hk.1, hk.2.1, hk.2.2]
    rw [if_neg hk]
    simp only [sanitizeClean, hb, Bool.false_eq_true, if_false, strTake,
      data_mk]
    rw [List.length_take]
    exact min_le_left _ _

theorem pyFallback_props (nowHM : String) (k : String)
    (h1 : nowHM.data.all pyIsSpace = false)
    (h2 : ∀ c ∈ nowHM.data, c ≠ '\n' ∧ c ≠ '\r' ∧ c ≠ '\t')
    (h3 : nowHM.data.length ≤ 20) :
    (pyFallback nowHM k).data.all pyIsSpace = false
    ∧ (∀ c ∈ (pyFallback nowHM k).data, c ≠ '\n' ∧ c ≠ '\r' ∧ c ≠ '\t')
    ∧ (pyFallback nowHM k).data.length ≤ 20 := by
  by_cases hk1 : k = "1"
  · simp only [pyFallback, if_pos hk1]
    exact ⟨h1, h2, h3⟩
  · simp only [pyFallback, if_neg hk1]
    by_cases hk2 : k = "2"
    · simp only [if_pos hk2]
      exact ⟨by decide, by decide, by decide⟩
    · simp only [if_neg hk2]
      by_cases hk3 : k = "3"
      · simp only [if_pos hk3]
        exact ⟨by decide, by decide, by decide⟩
      · simp only [if_neg hk3]
        by_cases hk4 : k = "4"
        · simp only [if_pos hk4]
          exact ⟨by decide, by decide, by decide⟩
        · simp only [if_neg hk4]
          by_cases hk5 : k = "5"
          · simp only [if_pos hk5]
            exact ⟨by decide, by decide, by decide⟩
          · simp only [if_neg hk5]
            by_cases hk6 : k = "6"
            · simp only [if_pos hk6]
              exact ⟨by decide, by decide, by decide⟩
            · simp only [if_neg hk6]
              by_cases hk7 : k = "7"
              · simp only [if_pos hk7]
                exact ⟨by decide, by decide, by decide⟩
              · simp only [if_neg hk7]
                by_cases hk8 : k = "8"
                · simp only [if_pos hk8]
                  exact ⟨by decide, by decide, by decide⟩
                · simp only [if_neg hk8]
                  by_cases hk9 : k = "9"
                  · simp only [if_pos hk9]
                    exact ⟨by decide, by decide, by decide⟩
                  · simp only [if_neg hk9]
                    by_cases hk10 : k = "10"
                    · simp only [if_pos hk10]
                      exact ⟨by decide, by decide, by decide⟩
                    · simp only [if_neg hk10]
                      by_cases hk11 : k = "11"
                      · simp only [if_pos hk11]
                        exact ⟨by decide, by decide, by decide⟩
                      · simp only [if_neg hk11]
                        by_cases hk12 : k = "12"
                        · simp only [if_pos hk12]
                          exact ⟨by decide, by decide, by decide⟩
                        · simp only [if_neg hk12]
                          exact ⟨by decide, by decide, by decide⟩

/-- C10: _sanitize_template_vars keeps the key set, returns only non-empty
values that are not whitespace-only, contain no newline, carriage return or
tab, and are at most 200 characters for keys 10, 11, 12 and at most 20 for
every other key; a value that cleans to empty or whitespace is replaced by
the key-specific fallback (N/A outside keys 1..12). -/
theorem sanitize_template_vars_invariants (nowHM : String)
    (tv : List (String × String))
    (h1 : nowHM.data.all pyIsSpace = false)
    (h2 : ∀ c ∈ nowHM.data, c ≠ '\n' ∧ c ≠ '\r' ∧ c ≠ '\t')
    (h3 : nowHM.data.length ≤ 20) :
    ((sanitizeTemplateVars nowHM tv).map Prod.fst = tv.map Prod.fst)
    ∧ (∀ kv ∈ sanitizeTemplateVars nowHM tv,
        kv.2.data.all pyIsSpace = false
        ∧ (∀ c ∈ kv.2.data, c ≠ '\n' ∧ c ≠ '\r' ∧ c ≠ '\t')
        ∧ kv.2.data.length ≤
          (if kv.1 = "10" ∨ kv.1 = "11" ∨ kv.1 = "12" then 200 else 20))
    ∧ (∀ k v, (k, v) ∈ tv → (sanitizeClean k v).data.all pyIsSpace = true →
        (k, pyFallback nowHM k) ∈ sanitizeTemplateVars nowHM tv) := by
  refine ⟨?_, ?_, ?_⟩
  · rw [sanitizeTemplateVars, List.map_map]
    exact List.map_congr_left (fun kv _ => rfl)
  · intro kv hkv
    rw [sanitizeTemplateVars, List.mem_map] at hkv
    obtain ⟨⟨k, v⟩, hmem, rfl⟩ := hkv
    dsimp only
    unfold sanitizeValue
    by_cases hsp : (sanitizeClean k v).data.all pyIsSpace = true
    · rw [if_pos hsp]
      obtain ⟨p1, p2, p3⟩ := pyFallback_props nowHM k h1 h2 h3
      refine ⟨p1, p2, ?_⟩
      by_cases hk : k = "10" ∨ k = "11" ∨ k = "12"
      · rw [if_pos hk]
        omega
      · rw [if_neg hk]
        exact p3
    · rw [if_neg hsp]
      rw [Bool.not_eq_true] at hsp
      exact ⟨hsp, sanitizeClean_ctl_free k v, sanitizeClean_length k v⟩
  · intro k v hmem hsp
    rw [sanitizeTemplateVars, List.mem_map]
    refine ⟨(k, v), hmem, ?_⟩
    simp [sanitizeValue, hsp]

/-- Witness for C10: an empty price value is cleaned to the fallback 0.00
and the resulting values satisfy the invariants. -/
theorem sanitize_template_vars_invariants_witness :
    ("2", "0.00") ∈ sanitizeTemplateVars "12:30" [("2", " ")]
    ∧ ∀ kv ∈ sanitizeTemplateVars "12:30" [("2", " ")],
        kv.2.data.all pyIsSpace = false := by
  have h := sanitize_template_vars_invariants "12:30" [("2", " ")]
    (by decide) (by decide) (by decide)
  constructor
  · exact h.2.2 "2" " " (by decide) (by decide)
  · intro kv hkv
    exact (h.2.1 kv hkv).1

theorem priceAccept3_spec (line : String) :
    priceAccept3 line = none
    ∨ ∃ c, priceAccept3 line = some c ∧ isValidPrice c = true
        ∧ c ∈ priceCands line := by
  by_cases h3 : pyIn "$" line = true
  · cases hfd : firstDollarNum line.data with
    | none =>
      left
      simp [priceAccept3, h3, hfd]
    | some m =>
      by_cases hb : (isValidPrice m && (match pyFloat m with
          | some q => decide ((10 : ℚ) < q)
          | none => false)) = true
      · right
        have hv : isValidPrice m = true := by
          revert hb
          cases isValidPrice m <;> simp
        refine ⟨m, ?_, hv, ?_⟩
        · simp [priceAccept3, h3, hfd, hb]
        · have : m ∈ (if pyIn "$" line = true
              then (firstDollarNum line.data).toList else []) := by
            simp [h3, hfd]
          unfold priceCands
          simp only [h3, if_true] at this ⊢
          exact List.mem_append_right _ (by simpa [hfd] using this)
      · left
        simp only [priceAccept3, h3, if_true, hfd]
        rw [if_neg]
        rw [Bool.not_eq_true] at hb
        simp [hb]
  · left
    simp [priceAccept3, h3]

theorem priceAccept2_spec (line : String) :
    priceAccept2 line = none
    ∨ ∃ c, priceAccept2 line = some c ∧ isValidPrice c = true
        ∧ c ∈ priceCands line := by
  by_cases h2 : (pyIn "💰" line && pyIn "$" line) = true
  · cases hdc : dollarCand line with
    | none =>
      have : priceAccept2 line = priceAccept3 line := by
        simp [priceAccept2, h2, hdc]
      rw [this]
      exact priceAccept3_spec line
    | some c =>
      by_cases hv : isValidPrice c = true
      · right
        refine ⟨c, ?_, hv, ?_⟩
        · simp [priceAccept2, h2, hdc, hv]
        · unfold priceCands
          refine List.mem_append_left _ (List.mem_append_right _ ?_)
          simp [h2, hdc]
      · have : priceAccept2 line = priceAccept3 line := by
          rw [Bool.not_eq_true] at hv
          simp [priceAccept2, h2, hdc, hv]
        rw [this]
        exact priceAccept3_spec line
  · have : priceAccept2 line = priceAccept3 line := by
      simp only [priceAccept2]
      rw [if_neg]
      simp [h2]
    rw [this]
    exact priceAccept3_spec line

theorem priceLineAccept_spec (line : String) :
    priceLineAccept line = none
    ∨ ∃ c, priceLineAccept line = some c ∧ isValidPrice c = true
        ∧ c ∈ priceCands line := by
  by_cases h1 : (pyIn "Price:" line && pyIn "$" line) = true
  · cases hdc : dollarCand line with
    | none =>
      have : priceLineAccept line = priceAccept2 line := by
        simp [priceLineAccept, h1, hdc]
      rw [this]
      exact priceAccept2_spec line
    | some c =>
      by_cases hv : isValidPrice c = true
      · right
        refine ⟨c, ?_, hv, ?_⟩
        · simp [priceLineAccept, h1, hdc, hv]
        · unfold priceCands
          refine List.mem_append_left _ (List.mem_append_left _ ?_)
          simp [h1, hdc]
      · have : priceLineAccept line = priceAccept2 line := by
          rw [Bool.not_eq_true] at hv
          simp [priceLineAccept, h1, hdc, hv]
        rw [this]
        exact priceAccept2_spec line
  · have : priceLineAccept line = priceAccept2 line := by
      simp only [priceLineAccept]
      rw [if_neg]
      simp [h1]
    rw [this]
    exact priceAccept2_spec line

theorem fundLineAccept_spec (line : String) :
    fundLineAccept line = none
    ∨ ∃ c, fundLineAccept line = some c ∧ isValidFundingRate c = true
        ∧ c ∈ fundCands line := by
  by_cases h0 : (pyIn "funding" (pyLower line) && pyIn "%" line) = true
  · by_cases h1 : pyIn "Funding:" line = true
    · cases hsp : (pySplitCh line ':').drop 1 with
      | nil =>
        left
        simp [fundLineAccept, h0, h1, hsp]
      | cons p rest =>
        by_cases hv : isValidFundingRate
            (chDrop '(' (pyStrip (firstSeg p '%'))) = true
        · right
          refine ⟨chDrop '(' (pyStrip (firstSeg p '%')), ?_, hv, ?_⟩
          · simp [fundLineAccept, h0, h1, hsp, hv]
          · simp [fundCands, h0, h1, hsp]
        · left
          rw [Bool.not_eq_true] at hv
          simp [fundLineAccept, h0, h1, hsp, hv]
    · by_cases h2 : pyIn "funding_pct" (pyLower line) = true
      · cases hsp : (pySplitCh line ':').drop 1 with
        | nil =>
          left
          simp [fundLineAccept, h0, h1, h2, hsp]
        | cons p rest =>
          by_cases hv : isValidFundingRate (chDrop ',' (pyStrip p)) = true
          · right
            refine ⟨chDrop ',' (pyStrip p), ?_, hv, ?_⟩
            · simp [fundLineAccept, h0, h1, h2, hsp, hv]
            · simp [fundCands, h0, h1, h2, hsp]
          · left
            rw [Bool.not_eq_true] at hv
            simp [fundLineAccept, h0, h1, h2, hsp, hv]
      · left
        simp [fundLineAccept, h0, h1, h2]
  · left
    simp only [fundLineAccept]
    rw [if_neg]
    simp [h0]

theorem fundChgLineAccept_spec (line : String) :
    fundChgLineAccept line = none
    ∨ ∃ c, fundChgLineAccept line = some c ∧ isValidFundingRate c = true
        ∧ c ∈ fundChgCands line := by
  by_cases h0 : pyIn "funding" (pyLower line) = true
  · by_cases h1 : (pyIn "6h Δ" line || pyIn "6h δ" (pyLower line)) = true
    · by_cases hDl : pyIn "Δ" line = true
      · cases hsp : (pySplitCh line 'Δ').drop 1 with
        | nil =>
          left
          simp [fundChgLineAccept, h0, h1, hDl, hsp]
        | cons p rest =>
          by_cases hv : isValidFundingRate
              (chDrop ')' (chDrop '(' (pyStrip (firstSeg p '%')))) = true
          · right
            refine ⟨chDrop ')' (chDrop '(' (pyStrip (firstSeg p '%'))), ?_,
              hv, ?_⟩
            · simp [fundChgLineAccept, h0, h1, hDl, hsp, hv]
            · simp [fundChgCands, h0, h1, hDl, hsp]
          · left
            rw [Bool.not_eq_true] at hv
            simp [fundChgLineAccept, h0, h1, hDl, hsp, hv]
      · cases hsp : (pySplitCh line 'δ').drop 1 with
        | nil =>
          left
          simp [fundChgLineAccept, h0, h1, hDl, hsp]
        | cons p rest =>
          by_cases hv : isValidFundingRate
              (chDrop ')' (chDrop '(' (pyStrip (firstSeg p '%')))) = true
          · right
            refine ⟨chDrop ')' (chDrop '(' (pyStrip (firstSeg p '%'))), ?_,
              hv, ?_⟩
            · simp [fundChgLineAccept, h0, h1, hDl, hsp, hv]
            · simp [fundChgCands, h0, h1, hDl, hsp]
          · left
            rw [Bool.not_eq_true] at hv
            simp [fundChgLineAccept, h0, h1, hDl, hsp, hv]
    · by_cases h2 : pyIn "funding_6h_change" (pyLower line) = true
      · cases hsp : (pySplitCh line ':').drop 1 with
        | nil =>
          left
          simp only [fundChgLineAccept, h0, if_true]
          rw [if_neg, if_pos h2, hsp]
          simp [h1]
        | cons p rest =>
          by_cases hv : isValidFundingRate (chDrop ',' (pyStrip p)) = true
          · right
            refine ⟨chDrop ',' (pyStrip p), ?_, hv, ?_⟩
            · simp only [fundChgLineAccept, h0, if_true]
              rw [if_neg, if_pos h2, hsp]
              · simp [hv]
              · simp [h1]
            · simp only [fundChgCands, h0, if_true]
              rw [if_neg, if_pos h2, hsp]
              · simp
              · simp [h1]
          · left
            rw [Bool.not_eq_true] at hv
            simp only [fundChgLineAccept, h0, if_true]
            rw [if_neg, if_pos h2, hsp]
            · simp [hv]
            · simp [h1]
      · left
        simp only [fundChgLineAccept, h0, if_true]
        rw [if_neg, if_neg]
        · simp [h2]
        · simp [h1]
  · left
    simp [fundChgLineAccept, h0]

/-- C1: in the extraction of _create_whatsapp_summary, a candidate is
accepted into variable 2 only when it parses as a float in [10, 1000] and
into variables 6 or 7 only when it parses as a float in [-1, 1]; whenever
no scanned line yields a candidate passing its validator, the variable
keeps its hardcoded default (0.00 for the price, 0.000 for the funding
rates). -/
theorem whatsapp_extraction_validated (analysis : String) :
    (extractPriceVar analysis = "0.00"
      ∨ isValidPrice (extractPriceVar analysis) = true)
    ∧ ((∀ l ∈ pySplitCh analysis '\n', ∀ c ∈ priceCands l,
        isValidPrice c = false) → extractPriceVar analysis = "0.00")
    ∧ (extractFundVar analysis = "0.000"
      ∨ isValidFundingRate (extractFundVar analysis) = true)
    ∧ ((∀ l ∈ pySplitCh analysis '\n', ∀ c ∈ fundCands l,
        isValidFundingRate c = false) → extractFundVar analysis = "0.000")
    ∧ (extractFundChgVar analysis = "0.000"
      ∨ isValidFundingRate (extractFundChgVar analysis) = true)
    ∧ ((∀ l ∈ pySplitCh analysis '\n', ∀ c ∈ fundChgCands l,
        isValidFundingRate c = false) →
        extractFundChgVar analysis = "0.000") := by
  refine ⟨?_, ?_, ?_, ?_, ?_, ?_⟩
  · cases hfs : (pySplitCh analysis '\n').findSome? priceLineAccept with
    | none =>
      left
      simp [extractPriceVar, hfs]
    | some c =>
      right
      obtain ⟨l, _, hacc⟩ := mem_of_findSome?_eq_some hfs
      rcases priceLineAccept_spec l with hnone | ⟨c2, heq, hv, -⟩
      · rw [hacc] at hnone
        cases hnone
      · rw [hacc] at heq
        obtain rfl := Option.some.inj heq
        simp [extractPriceVar, hfs, hv]
  · intro hall
    have hnone : ∀ l ∈ pySplitCh analysis '\n', priceLineAccept l = none := by
      intro l hl
      rcases priceLineAccept_spec l with h | ⟨c, heq, hv, hmem⟩
      · exact h
      · rw [hall l hl c hmem] at hv
        cases hv
    rw [extractPriceVar, findSome?_eq_none_of _ _ hnone]
    rfl
  · cases hfs : (pySplitCh analysis '\n').findSome? fundLineAccept with
    | none =>
      left
      simp [extractFundVar, hfs]
    | some c =>
      right
      obtain ⟨l, _, hacc⟩ := mem_of_findSome?_eq_some hfs
      rcases fundLineAccept_spec l with hnone | ⟨c2, heq, hv, -⟩
      · rw [hacc] at hnone
        cases hnone
      · rw [hacc] at heq
        obtain rfl := Option.some.inj heq
        simp [extractFundVar, hfs, hv]
  · intro hall
    have hnone : ∀ l ∈ pySplitCh analysis '\n', fundLineAccept l = none := by
      intro l hl
      rcases fundLineAccept_spec l with h | ⟨c, heq, hv, hmem⟩
      · exact h
      · rw [hall l hl c hmem] at hv
        cases hv
    rw [extractFundVar, findSome?_eq_none_of _ _ hnone]
    rfl
  · cases hfs : (pySplitCh analysis '\n').findSome? fundChgLineAccept with
    | none =>
      left
      simp [extractFundChgVar, hfs]
    | some c =>
      right
      obtain ⟨l, _, hacc⟩ := mem_of_findSome?_eq_some hfs
      rcases fundChgLineAccept_spec l with hnone | ⟨c2, heq, hv, -⟩
      · rw [hacc] at hnone
        cases hnone
      · rw [hacc] at heq
        obtain rfl := Option.some.inj heq
        simp [extractFundChgVar, hfs, hv]
  · intro hall
    have hnone : ∀ l ∈ pySplitCh analysis '\n',
        fundChgLineAccept l = none := by
      intro l hl
      rcases fundChgLineAccept_spec l with h | ⟨c, heq, hv, hmem⟩
      · exact h
      · rw [hall l hl c hmem] at hv
        cases hv
    rw [extractFundChgVar, findSome?_eq_none_of _ _ hnone]
    rfl

/-- Witness for C1: a line whose price candidate list is empty and whose
funding candidates 5 and 9 fail the range check leaves all three variables
at their defaults. -/
theorem whatsapp_extraction_validated_witness :
    extractPriceVar "Funding: 5% (6h Δ 9%)" = "0.00"
    ∧ extractFundVar "Funding: 5% (6h Δ 9%)" = "0.000"
    ∧ extractFundChgVar "Funding: 5% (6h Δ 9%)" = "0.000" := by
  have h5 : isValidFundingRate "5" = false := by
    have hp : pyFloatParts (pyStrip "5").data = some (1, 5, 0, 0, 0) := by
      decide
    simp only [isValidFundingRate, pyFloat, hp]
    norm_num
  have h9 : isValidFundingRate "9" = false := by
    have hp : pyFloatParts (pyStrip "9").data = some (1, 9, 0, 0, 0) := by
      decide
    simp only [isValidFundingRate, pyFloat, hp]
    norm_num
  have hln : pySplitCh "Funding: 5% (6h Δ 9%)" '\n' =
      ["Funding: 5% (6h Δ 9%)"] := by decide
  have h := whatsapp_extraction_validated "Funding: 5% (6h Δ 9%)"
  refine ⟨h.2.1 ?_, h.2.2.2.1 ?_, h.2.2.2.2.2 ?_⟩
  · intro l hl c hc
    rw [hln] at hl
    have hl2 : l = "Funding: 5% (6h Δ 9%)" := by simpa using hl
    subst hl2
    have hpc : priceCands "Funding: 5% (6h Δ 9%)" = [] := by decide
    rw [hpc] at hc
    exact absurd hc (List.not_mem_nil c)
  · intro l hl c hc
    rw [hln] at hl
    have hl2 : l = "Funding: 5% (6h Δ 9%)" := by simpa using hl
    subst hl2
    have hfc : fundCands "Funding: 5% (6h Δ 9%)" = ["5"] := by decide
    rw [hfc] at hc
    have hc2 : c = "5" := by simpa using hc
    subst hc2
    exact h5
  · intro l hl c hc
    rw [hln] at hl
    have hl2 : l = "Funding: 5% (6h Δ 9%)" := by simpa using hl
    subst hl2
    have hfc : fundChgCands "Funding: 5% (6h Δ 9%)" = ["9"] := by decide
    rw [hfc] at hc
    have hc2 : c = "9" := by simpa using hc
    subst hc2
    exact h9

end SolBot
